import Mathlib

/-!
Verification of the internship-finder pipeline
(`internship_matcher_deep.py`, `streamlit_app.py`).

Part 1: the cache-key hash `sha` (source lines 85-86):
`hashlib.sha256(s.encode("utf-8", errors="ignore")).hexdigest()`.
We embed UTF-8 encoding and SHA-256 (FIPS 180-4) over `Nat`, with 32-bit
arithmetic written as explicit `% 2^32`.
-/

namespace Matcher

/-- Truncation to 32 bits. -/
def w32 (n : Nat) : Nat := n % 2 ^ 32

/-- Right rotation of a 32-bit word by `n` places. -/
def rotr (x n : Nat) : Nat := w32 (x / 2 ^ n + x % 2 ^ n * 2 ^ (32 - n))

/-- Logical right shift. -/
def shr (x n : Nat) : Nat := x / 2 ^ n

/-- Bitwise complement on 32 bits. -/
def bnot32 (x : Nat) : Nat := Nat.xor x (2 ^ 32 - 1)

/-- UTF-8 encoding of a single character as a byte list.
Lean `Char`s are Unicode scalar values, so every character encodes;
this matches `str.encode("utf-8", errors="ignore")`, where `ignore`
only drops lone surrogates, which cannot occur here. -/
def utf8Bytes (c : Char) : List Nat :=
  let n := c.toNat
  if n < 0x80 then [n]
  else if n < 0x800 then [0xC0 + n / 64, 0x80 + n % 64]
  else if n < 0x10000 then
    [0xE0 + n / 4096, 0x80 + n / 64 % 64, 0x80 + n % 64]
  else
    [0xF0 + n / 262144, 0x80 + n / 4096 % 64, 0x80 + n / 64 % 64, 0x80 + n % 64]

/-- UTF-8 byte sequence of a string. -/
def strBytes (s : String) : List Nat := (s.data.map utf8Bytes).flatten

/-- SHA-256 round constants (FIPS 180-4, first 32 bits of the fractional
parts of the cube roots of the first 64 primes). -/
def shaK : List Nat :=
  [1116352408, 1899447441, 3049323471,
   3921009573, 961987163, 1508970993,
   2453635748, 2870763221, 3624381080,
   310598401, 607225278, 1426881987,
   1925078388, 2162078206, 2614888103,
   3248222580, 3835390401, 4022224774,
   264347078, 604807628, 770255983,
   1249150122, 1555081692, 1996064986,
   2554220882, 2821834349, 2952996808,
   3210313671, 3336571891, 3584528711,
   113926993, 338241895, 666307205,
   773529912, 1294757372, 1396182291,
   1695183700, 1986661051, 2177026350,
   2456956037, 2730485921, 2820302411,
   3259730800, 3345764771, 3516065817,
   3600352804, 4094571909, 275423344,
   430227734, 506948616, 659060556,
   883997877, 958139571, 1322822218,
   1537002063, 1747873779, 1955562222,
   2024104815, 2227730452, 2361852424,
   2428436474, 2756734187, 3204031479,
   3329325298]

/-- SHA-256 working state: eight 32-bit words. -/
structure Hash8 where
  h0 : Nat
  h1 : Nat
  h2 : Nat
  h3 : Nat
  h4 : Nat
  h5 : Nat
  h6 : Nat
  h7 : Nat
  deriving Repr, DecidableEq

/-- SHA-256 initial hash value. -/
def shaInit : Hash8 :=
  ⟨1779033703, 3144134277, 1013904242, 2773480762,
   1359893119, 2600822924, 528734635, 1541459225⟩

/-- Message-schedule extension: prepend `fuel` new words to the reversed
schedule `acc` (most recent word first). -/
def extendSchedule : Nat → List Nat → List Nat
  | 0, acc => acc
  | fuel + 1, acc =>
    let s0 :=
      Nat.xor (Nat.xor (rotr (acc.getD 14 0) 7) (rotr (acc.getD 14 0) 18))
        (shr (acc.getD 14 0) 3)
    let s1 :=
      Nat.xor (Nat.xor (rotr (acc.getD 1 0) 17) (rotr (acc.getD 1 0) 19))
        (shr (acc.getD 1 0) 10)
    let nw := w32 (s1 + acc.getD 6 0 + s0 + acc.getD 15 0)
    extendSchedule fuel (nw :: acc)

/-- Full 64-word message schedule for one 16-word block. -/
def schedule (block : List Nat) : List Nat :=
  (extendSchedule 48 block.reverse).reverse

/-- One compression round on the working variables, consuming `(wᵢ, kᵢ)`. -/
def round (st : Hash8) (wk : Nat × Nat) : Hash8 :=
  let a := st.h0; let b := st.h1; let c := st.h2; let d := st.h3
  let e := st.h4; let f := st.h5; let g := st.h6; let h := st.h7
  let bigS1 := Nat.xor (Nat.xor (rotr e 6) (rotr e 11)) (rotr e 25)
  let ch := Nat.xor (Nat.land e f) (Nat.land (bnot32 e) g)
  let temp1 := w32 (h + bigS1 + ch + wk.2 + wk.1)
  let bigS0 := Nat.xor (Nat.xor (rotr a 2) (rotr a 13)) (rotr a 22)
  let maj := Nat.xor (Nat.xor (Nat.land a b) (Nat.land a c)) (Nat.land b c)
  let temp2 := w32 (bigS0 + maj)
  ⟨w32 (temp1 + temp2), a, b, c, w32 (d + temp1), e, f, g⟩

/-- Compress one 16-word block into the running hash. -/
def compressBlock (h : Hash8) (block : List Nat) : Hash8 :=
  let st := ((schedule block).zip shaK).foldl round h
  ⟨w32 (h.h0 + st.h0), w32 (h.h1 + st.h1), w32 (h.h2 + st.h2),
   w32 (h.h3 + st.h3), w32 (h.h4 + st.h4), w32 (h.h5 + st.h5),
   w32 (h.h6 + st.h6), w32 (h.h7 + st.h7)⟩

/-- SHA-256 padding: append `0x80`, zeros, and the 64-bit big-endian bit
length so the total byte count is a multiple of 64. -/
def pad (m : List Nat) : List Nat :=
  let L := m.length
  let zeros := (64 + 56 - (L + 1) % 64) % 64
  let bitLen := L * 8
  m ++ [0x80] ++ List.replicate zeros 0 ++
    [bitLen / 2 ^ 56 % 256, bitLen / 2 ^ 48 % 256, bitLen / 2 ^ 40 % 256,
     bitLen / 2 ^ 32 % 256, bitLen / 2 ^ 24 % 256, bitLen / 2 ^ 16 % 256,
     bitLen / 2 ^ 8 % 256, bitLen % 256]

/-- Group bytes into big-endian 32-bit words. -/
def bytesToWords : List Nat → List Nat
  | a :: b :: c :: d :: rest =>
    (a * 2 ^ 24 + b * 2 ^ 16 + c * 2 ^ 8 + d) :: bytesToWords rest
  | _ => []

/-- Group words into 16-word blocks (the padded input is always a
multiple of 16 words; a shorter tail cannot occur). -/
def wordsToBlocks : List Nat → List (List Nat)
  | w0 :: w1 :: w2 :: w3 :: w4 :: w5 :: w6 :: w7 ::
    w8 :: w9 :: w10 :: w11 :: w12 :: w13 :: w14 :: w15 :: rest =>
    [w0, w1, w2, w3, w4, w5, w6, w7, w8, w9, w10, w11, w12, w13, w14, w15]
      :: wordsToBlocks rest
  | _ => []

/-- Lowercase hexadecimal digit for a nibble value. -/
def hexChar : Nat → Char
  | 0 => '0' | 1 => '1' | 2 => '2' | 3 => '3'
  | 4 => '4' | 5 => '5' | 6 => '6' | 7 => '7'
  | 8 => '8' | 9 => '9' | 10 => 'a' | 11 => 'b'
  | 12 => 'c' | 13 => 'd' | 14 => 'e' | 15 => 'f'
  | _ => '0'

/-- Eight lowercase hex characters of a 32-bit word, most significant first. -/
def toHex8List (n : Nat) : List Char :=
  [hexChar (n / 16 ^ 7 % 16), hexChar (n / 16 ^ 6 % 16),
   hexChar (n / 16 ^ 5 % 16), hexChar (n / 16 ^ 4 % 16),
   hexChar (n / 16 ^ 3 % 16), hexChar (n / 16 ^ 2 % 16),
   hexChar (n / 16 % 16), hexChar (n % 16)]

/-- Lowercase hex digest of a final hash value (64 characters). -/
def digestOfHash (h : Hash8) : String :=
  String.mk (toHex8List h.h0 ++ toHex8List h.h1 ++ toHex8List h.h2 ++
    toHex8List h.h3 ++ toHex8List h.h4 ++ toHex8List h.h5 ++
    toHex8List h.h6 ++ toHex8List h.h7)

/-- The source's `sha(s)`: SHA-256 hexdigest of the UTF-8 encoding. -/
def sha (s : String) : String :=
  let blocks := wordsToBlocks (bytesToWords (pad (strBytes s)))
  digestOfHash (blocks.foldl compressBlock shaInit)

/-!
Part 2: configuration constants (source lines 74-80), the HTTP session
(source lines 89-106), and the startup credential check (source lines 48-54).
-/

/-- Prompt version constant (source line 75). -/
def PROMPT_V : String := "2025-10-06.v1"

/-- Maximum-evaluations bound default (source line 76). -/
def MIN_EVALS : Nat := 200

/-- Per-query result bound (source line 77). -/
def MAX_PER_QUERY : Nat := 120

/-- Minimum-approved target default (source line 78). -/
def MIN_APPROVED : Nat := 8

/-- Retry configuration (`urllib3.util.Retry`) as built in `make_session`. -/
structure RetryPolicy where
  total : Nat
  backoff_factor : ℚ
  status_forcelist : List Nat
  allowed_methods : List String
  deriving DecidableEq, Repr

/-- The requests session configured by `make_session`. -/
structure Session where
  retry : RetryPolicy
  user_agent : String
  accept_language : String
  request_timeout : Nat
  deriving DecidableEq, Repr

/-- Embedding of `make_session(timeout_sec=12, retries=2, backoff=0.5)`
(source lines 89-104): retry policy on statuses 429/500/502/503/504 for GET
only, browser headers, and the per-request timeout stored on the session. -/
def make_session (timeout_sec retries : Nat) (backoff : ℚ) : Session :=
  { retry :=
      { total := retries
        backoff_factor := backoff
        status_forcelist := [429, 500, 502, 503, 504]
        allowed_methods := ["GET"] }
    user_agent := "Mozilla/5.0 (Windows NT 10.0; Win64; x64) " ++
      "AppleWebKit/537.36 (KHTML, like Gecko) Chrome/124 Safari/537.36"
    accept_language := "en-US,en;q=0.9"
    request_timeout := timeout_sec }

/-- The module-level session `SESSION = make_session()` (source line 106),
built with the declared defaults timeout_sec=12, retries=2, backoff=0.5. -/
def SESSION : Session := make_session 12 2 (1 / 2)

/-- Whether the retry policy retries a failed request: only methods in
`allowed_methods` and only statuses in `status_forcelist`. -/
def shouldRetry (p : RetryPolicy) (method : String) (status : Nat) : Bool :=
  p.allowed_methods.contains method && p.status_forcelist.contains status

/-- Modelled from the spec: the HTTP transport retry capability the crawl
component consumes (the fetch loop is in the elided continuation of the
source). Counts attempts for one fetch, the server answering each attempt
with the next status in `statuses`; `budget` is the remaining retry
allowance, exhausted statuses end the list (success). -/
def fetchAttempts (p : RetryPolicy) (method : String) :
    List Nat → Nat → Nat
  | [], _ => 0
  | s :: rest, budget =>
    if shouldRetry p method s then
      match budget with
      | 0 => 1
      | b + 1 => 1 + fetchAttempts p method rest b
    else 1

/-- Attempts a session performs for one unit of work. -/
def attemptsUsed (sess : Session) (method : String)
    (statuses : List Nat) : Nat :=
  fetchAttempts sess.retry method statuses sess.retry.total

/-- Modelled from the spec: failures are per unit of work — the crawl maps a
fallible fetch over the units; one unit failing (fetch returns `none`) does
not affect the others. -/
def crawlUnits {α β : Type} (fetch : α → Option β) (units : List α) :
    List (Option β) :=
  units.map fetch

/-- Outcome of the startup credential check. -/
inductive StartupResult
  | proceed (key : String)
  | exitWith (status : Nat)
  deriving DecidableEq, Repr

/-- Python's `str.strip()`: drop whitespace from both ends. -/
def pyStrip (s : String) : String :=
  String.mk
    (((s.data.dropWhile Char.isWhitespace).reverse.dropWhile
      Char.isWhitespace).reverse)

/-- Startup check (source lines 48-54):
`API_KEY = os.getenv("OPENAI_API_KEY", "").strip()`; an empty result raises,
which is caught and turned into `sys.exit(1)` after printing the error —
before any pipeline work. -/
def startupCheck (openai_api_key : Option String) : StartupResult :=
  let key := pyStrip (openai_api_key.getD "")
  if key = "" then .exitWith 1 else .proceed key

/-!
Part 3: data model (spec section 3) and the Location Gate. The gate and the
pipeline stages live in the elided continuation of the source, so they are
modelled from the spec.
-/

/-- Tri-state location verdict; no approve state exists, the gate only
blocks or defers to the model. -/
inductive LocationVerdict
  | pass
  | reject
  deriving DecidableEq, Repr

/-- Degree-gate verdict. -/
inductive DegreeVerdict
  | eligible
  | rejectedEarly
  deriving DecidableEq, Repr

/-- Evaluator decision. -/
inductive Decision
  | approve
  | deny
  deriving DecidableEq, Repr

/-- Evaluation result produced by the Job Evaluator per eligible posting. -/
structure EvaluationResult where
  decision : Decision
  score : Nat
  priority : Nat
  matchedSkills : List String
  gaps : List String
  reason : String
  deriving DecidableEq, Repr

/-- Resume profile derived once per run from resume text. -/
structure ResumeProfile where
  domainWeights : List (String × Nat)
  skills : List (String × Nat)
  strength : Nat
  suggestedQueries : List String
  requiredDegree : Option String
  gradeYear : Option String
  languages : List String
  deriving DecidableEq, Repr

/-- Job posting, one per scraped listing. -/
structure JobPosting where
  source : String
  title : String
  company : String
  location : String
  description : String
  url : String
  deriving DecidableEq, Repr

/-- Stable posting identifier used for deduplication: derived from the URL,
or a hash of title+company+location when the URL is blank. -/
def postingId (p : JobPosting) : String :=
  if p.url = "" then sha (p.title ++ p.company ++ p.location) else p.url

/-- Whether `tok` is an initial segment of `s`. -/
def startsWithSeq : List Char → List Char → Bool
  | [], _ => true
  | _ :: _, [] => false
  | a :: as, b :: bs => a == b && startsWithSeq as bs

/-- Whether `tok` occurs contiguously somewhere in `s`. -/
def occursIn (tok : List Char) : List Char → Bool
  | [] => tok.isEmpty
  | c :: rest => startsWithSeq tok (c :: rest) || occursIn tok rest

/-- ASCII lowercasing of a string. -/
def lowerStr (s : String) : String := String.mk (s.data.map Char.toLower)

/-- Substring test on the character lists of two strings. -/
def containsSub (s tok : String) : Bool := occursIn tok.data s.data

/-- Modelled from the spec: the Location Gate's target-area configuration.
The spec's design notes direct implementers to treat what counts as
clearly out-of-area as a configurable allow/deny rule set rather than the
source's exact spaCy heuristics. -/
structure GateConfig where
  targetMetro : List String
  outsideLocales : List String
  remoteIndicators : List String
  deriving Repr

/-- The lowercase location string names a configured out-of-area locale. -/
def namesOutside (cfg : GateConfig) (loc : String) : Bool :=
  cfg.outsideLocales.any (containsSub (lowerStr loc))

/-- The lowercase location string carries a remote/nationwide indicator or
names the target metro itself. -/
def hasRemoteOrArea (cfg : GateConfig) (loc : String) : Bool :=
  cfg.remoteIndicators.any (containsSub (lowerStr loc)) ||
    cfg.targetMetro.any (containsSub (lowerStr loc))

/-- Modelled from the spec: the Location Gate (spec 4.1; the gate itself is
in the elided continuation of the source). Reject only when the text
unambiguously names a different, non-remote locale; pass for empty,
ambiguous, nation-wide, or remote-indicating text. Pure function of the
string and the static configuration. -/
def locationGate (cfg : GateConfig) (loc : String) : LocationVerdict :=
  if pyStrip loc = "" then .pass
  else if hasRemoteOrArea cfg loc then .pass
  else if namesOutside cfg loc then .reject
  else .pass

/-- A Dallas-area configuration in the spirit of the source's docstring
(Dallas + US-wide, remote found via gate permissiveness). -/
def dallasGateConfig : GateConfig :=
  { targetMetro := ["dallas", "plano", "irving", "richardson", "frisco"]
    outsideLocales := ["new york", "san francisco", "seattle", "chicago",
      "boston", "los angeles", "austin", "houston"]
    remoteIndicators := ["remote", "anywhere", "nationwide", "united states",
      "usa", "us"] }

/-!
Part 4: the LLM Gateway with its content-addressed cache (spec 4.2), the
gated pipeline stages, the Discovery Controller (spec 4.6), and the Result
Writer (spec 4.7). All modelled from the spec: this code is in the elided
continuation of the source; only `sha` and `PROMPT_V` appear under src.
-/

/-- Call kinds of the LLM Gateway. -/
inductive CallKind
  | profile
  | degreeGate
  | jobEvaluation
  deriving DecidableEq, Repr

/-- Modelled from the spec: the cache key is a deterministic hash of prompt
version, call kind, and normalized payload. The key-construction code is
elided from the source; the spec's content-addressing treats the hash as
collision-free (the version being part of the hash input implicitly
invalidates prior entries), so the key is modelled as the injective triple
of the hash inputs. -/
structure CacheKey where
  version : String
  kind : CallKind
  payload : String
  deriving DecidableEq, Repr

/-- Structured model outputs, tagged per call kind. -/
inductive ModelOutput
  | profileOut (p : ResumeProfile)
  | degreeOut (d : DegreeVerdict)
  | evalOut (r : EvaluationResult)
  deriving DecidableEq, Repr

/-- First-match lookup in the cache store. -/
def lookupEntry : List (CacheKey × ModelOutput) → CacheKey → Option ModelOutput
  | [], _ => none
  | (k, v) :: rest, key => if k = key then some v else lookupEntry rest key

/-- Gateway state: the persistent cache store plus the count of model calls
issued so far in this run. -/
structure GatewayState where
  cache : List (CacheKey × ModelOutput)
  calls : Nat
  deriving DecidableEq, Repr

/-- Modelled from the spec: `evaluate(kind, payload)` of the LLM Gateway.
A present CacheEntry is returned unchanged with no model call; otherwise the
model (the `oracle`, already wrapped in its bounded retries — `none` means
persistent failure or an unparseable response) is called once, a successful
result is stored under the key, and a failure surfaces as `none` for this
single item. -/
def evaluate (version : String)
    (oracle : CallKind → String → Option ModelOutput)
    (gw : GatewayState) (kind : CallKind) (payload : String) :
    GatewayState × Option ModelOutput :=
  let key : CacheKey := ⟨version, kind, payload⟩
  match lookupEntry gw.cache key with
  | some v => (gw, some v)
  | none =>
    match oracle kind payload with
    | some v => (⟨(key, v) :: gw.cache, gw.calls + 1⟩, some v)
    | none => (⟨gw.cache, gw.calls + 1⟩, none)

/-- Schema validation at the gateway boundary: a profile call must yield a
profile; anything else is a per-item failure. -/
def decodeProfile : Option ModelOutput → Option ResumeProfile
  | some (.profileOut p) => some p
  | _ => none

/-- Schema validation for degree-gate responses. -/
def decodeDegree : Option ModelOutput → Option DegreeVerdict
  | some (.degreeOut d) => some d
  | _ => none

/-- Schema validation for evaluation responses. -/
def decodeEval : Option ModelOutput → Option EvaluationResult
  | some (.evalOut r) => some r
  | _ => none

/-- Normalized payload of a degree-gate call for one posting. -/
def degreePayload (p : JobPosting) : String :=
  p.title ++ "\n" ++ p.company ++ "\n" ++ p.description

/-- Normalized payload of a job-evaluation call: resume content plus the
posting's fields. -/
def evalPayload (resumeText : String) (p : JobPosting) : String :=
  resumeText ++ "\n" ++ p.title ++ "\n" ++ p.company ++ "\n" ++
    p.location ++ "\n" ++ p.description

/-- Per-posting record of the run: each posting carries at most one
location verdict, at most one degree verdict, at most one evaluation
result. `evalAttempted` marks that the posting reached the Job Evaluator. -/
structure Processed where
  posting : JobPosting
  locVerdict : LocationVerdict
  degVerdict : Option DegreeVerdict
  evalResult : Option EvaluationResult
  evalAttempted : Bool
  deriving DecidableEq, Repr

/-- Modelled from the spec: one posting through Location Gate, then Degree
Gate, then Job Evaluator (cheapest filters first). A failed or unparseable
degree call skips the posting (conservative, never silently approve); a
failed evaluation call records no result but the run continues. -/
def processPosting (version resumeText : String)
    (oracle : CallKind → String → Option ModelOutput) (cfg : GateConfig)
    (gw : GatewayState) (p : JobPosting) : GatewayState × Processed :=
  match locationGate cfg p.location with
  | .reject => (gw, ⟨p, .reject, none, none, false⟩)
  | .pass =>
    let r1 := evaluate version oracle gw .degreeGate (degreePayload p)
    match decodeDegree r1.2 with
    | some .rejectedEarly => (r1.1, ⟨p, .pass, some .rejectedEarly, none, false⟩)
    | some .eligible =>
      let r2 := evaluate version oracle r1.1 .jobEvaluation (evalPayload resumeText p)
      (r2.1, ⟨p, .pass, some .eligible, decodeEval r2.2, true⟩)
    | none => (r1.1, ⟨p, .pass, none, none, false⟩)

/-- Run parameters (spec section 6 configuration surface). -/
structure RunConfig where
  minEvals : Nat
  minApproved : Nat
  top : Nat
  deriving DecidableEq, Repr

/-- Defaults: maximum evaluations 200, approval target 8, display 25. -/
def defaultConfig : RunConfig := ⟨MIN_EVALS, MIN_APPROVED, 25⟩

/-- Modelled from the spec: the argparse surface
`[--min-evals N] [--min-approved N] [--top N]` (source docstring line 29;
the argparse code is in the elided continuation). Later flags override
earlier values; unknown flags are ignored. -/
def parseArgs : List (String × Nat) → RunConfig → RunConfig
  | [], cfg => cfg
  | ("--min-evals", v) :: rest, cfg => parseArgs rest { cfg with minEvals := v }
  | ("--min-approved", v) :: rest, cfg => parseArgs rest { cfg with minApproved := v }
  | ("--top", v) :: rest, cfg => parseArgs rest { cfg with top := v }
  | _ :: rest, cfg => parseArgs rest cfg

/-- The flags the streamlit front-end passes to the pipeline
(`streamlit_app.py` lines 100-107). -/
def streamlitFlags (min_evals min_approved top_n : Nat) :
    List (String × Nat) :=
  [("--min-evals", min_evals), ("--min-approved", min_approved),
   ("--top", top_n)]

/-- Discovery Controller state: gateway (cache + call count), identifiers
seen so far (dedup), and per-posting outcomes in discovery order. -/
structure RunState where
  gw : GatewayState
  seen : List String
  outcomes : List Processed
  deriving DecidableEq, Repr

/-- An outcome counts as an approval. -/
def isApproved (o : Processed) : Bool :=
  match o.evalResult with
  | some r => r.decision == .approve
  | none => false

/-- count(approved). -/
def approvedCount (st : RunState) : Nat := st.outcomes.countP isApproved

/-- count(total evaluated): postings that reached the Job Evaluator. -/
def evaluatedCount (st : RunState) : Nat :=
  st.outcomes.countP (·.evalAttempted)

/-- Modelled from the spec: the stop condition, checked between units of
work — approval target met or evaluation bound hit. -/
def stopReached (rc : RunConfig) (st : RunState) : Bool :=
  decide (rc.minApproved ≤ approvedCount st) ||
    decide (rc.minEvals ≤ evaluatedCount st)

/-- Process one new posting and record its outcome and identifier. -/
def applyPosting (gc : GateConfig) (version resumeText : String)
    (oracle : CallKind → String → Option ModelOutput)
    (st : RunState) (p : JobPosting) : RunState :=
  let r := processPosting version resumeText oracle gc st.gw p
  ⟨r.1, postingId p :: st.seen, st.outcomes ++ [r.2]⟩

/-- Modelled from the spec: processing of one crawled batch in discovery
order, re-checking the stop condition before every posting and skipping
identifiers already seen (dedup). -/
def runBatch (rc : RunConfig) (gc : GateConfig) (version resumeText : String)
    (oracle : CallKind → String → Option ModelOutput) :
    RunState → List JobPosting → RunState
  | st, [] => st
  | st, p :: ps =>
    if stopReached rc st then st
    else if st.seen.contains (postingId p) then
      runBatch rc gc version resumeText oracle st ps
    else
      runBatch rc gc version resumeText oracle
        (applyPosting gc version resumeText oracle st p) ps

/-- Modelled from the spec: the query loop — crawl the next unexhausted
query (bounded per query), process the batch, stop when the condition holds.
Returns the final state and the queries left untried. -/
def runQueries (rc : RunConfig) (gc : GateConfig)
    (version resumeText : String)
    (oracle : CallKind → String → Option ModelOutput)
    (crawl : String → List JobPosting) :
    RunState → List String → RunState × List String
  | st, [] => (st, [])
  | st, q :: qs =>
    if stopReached rc st then (st, q :: qs)
    else
      runQueries rc gc version resumeText oracle crawl
        (runBatch rc gc version resumeText oracle st
          ((crawl q).take MAX_PER_QUERY)) qs

/-- Modelled from the spec: static broad queries (target metro plus
nation-wide; no remote keyword dependency). -/
def staticQueries : List String :=
  ["internships dallas tx", "internships united states"]

/-- Seed the query list from the profile's suggestions plus the static
broad queries. -/
def seedQueries (prof : ResumeProfile) : List String :=
  prof.suggestedQueries ++ staticQueries

/-- Modelled from the spec: a full pipeline run — profile extraction (one
gateway call), then the discovery loop. A missing profile ends the run with
no discovery work. -/
def runPipeline (rc : RunConfig) (gc : GateConfig) (version : String)
    (oracle : CallKind → String → Option ModelOutput)
    (crawl : String → List JobPosting) (resumeText : String)
    (gw0 : GatewayState) :
    GatewayState × Option (ResumeProfile × RunState × List String) :=
  let r := evaluate version oracle gw0 .profile resumeText
  match decodeProfile r.2 with
  | none => (r.1, none)
  | some prof =>
    let res := runQueries rc gc version resumeText oracle crawl
      ⟨r.1, [], []⟩ (seedQueries prof)
    (res.1.gw, some (prof, res.1, res.2))

/-- Final output record: evaluation fields plus identifying posting fields
plus the discovery index used for the stable tie-break. -/
structure ResultRow where
  title : String
  company : String
  url : String
  score : Nat
  priority : Nat
  discoveryIndex : Nat
  deriving DecidableEq, Repr

/-- An outcome's result row, if its decision is approve. -/
def rowOfOutcome (i : Nat) (o : Processed) : Option ResultRow :=
  match o.evalResult with
  | some r =>
    if r.decision == .approve then
      some ⟨o.posting.title, o.posting.company, o.posting.url,
        r.score, r.priority, i⟩
    else none
  | none => none

/-- The approved rows in discovery order. -/
def approvedRows (outcomes : List Processed) : List ResultRow :=
  outcomes.enum.filterMap (fun io => rowOfOutcome io.1 io.2)

/-- Sort key of the Result Writer: score descending, then priority tier
ascending, then discovery order ascending. -/
def rowLE (a b : ResultRow) : Bool :=
  decide (b.score < a.score) ||
    (a.score == b.score &&
      (decide (a.priority < b.priority) ||
        (a.priority == b.priority &&
          decide (a.discoveryIndex ≤ b.discoveryIndex))))

/-- Modelled from the spec: the Result Writer's row list — only approved
postings, sorted descending by score, ties broken by priority tier then
discovery order. -/
def writeResults (outcomes : List Processed) : List ResultRow :=
  (approvedRows outcomes).mergeSort rowLE

/-- Cache extension order: every lookup in the first store succeeds with
the same value in the second. -/
def cacheLE (c₁ c₂ : List (CacheKey × ModelOutput)) : Prop :=
  ∀ key val, lookupEntry c₁ key = some val → lookupEntry c₂ key = some val

/-- Per-outcome invariant: an evaluated posting passed both gates, a
rejected-early posting was never evaluated, and a stored result implies an
evaluation took place. -/
def outcomeInv (o : Processed) : Prop :=
  (o.evalAttempted = true →
    o.locVerdict = .pass ∧ o.degVerdict = some .eligible) ∧
  (o.degVerdict = some .rejectedEarly →
    o.evalAttempted = false ∧ o.evalResult = none) ∧
  (o.evalResult ≠ none → o.evalAttempted = true)

/-- Whole-run invariant: every outcome is well-formed, posting identifiers
are unique across outcomes (at most one verdict set per posting), and every
recorded identifier was marked seen. -/
def stateInv (st : RunState) : Prop :=
  (∀ o ∈ st.outcomes, outcomeInv o) ∧
  (st.outcomes.map fun o => postingId o.posting).Nodup ∧
  (∀ o ∈ st.outcomes, postingId o.posting ∈ st.seen)

/-!
Part 5: helper lemmas.
-/

/-- Every nibble renders to a lowercase hexadecimal digit. -/
lemma hexChar_mem (n : Nat) : hexChar n ∈ "0123456789abcdef".data := by
  unfold hexChar
  split <;> decide

/-- Characters of a word's hex rendering are lowercase hex digits. -/
lemma toHex8List_mem {c : Char} {n : Nat} (h : c ∈ toHex8List n) :
    c ∈ "0123456789abcdef".data := by
  simp only [toHex8List, List.mem_cons, List.not_mem_nil, or_false] at h
  rcases h with rfl | rfl | rfl | rfl | rfl | rfl | rfl | rfl <;>
    exact hexChar_mem _

/-- A digest always has 64 characters. -/
lemma digestOfHash_length (h : Hash8) : (digestOfHash h).length = 64 := by
  simp [digestOfHash, String.length, toHex8List]

/-- Digest characters are lowercase hex digits. -/
lemma digestOfHash_chars (h : Hash8) :
    ∀ c ∈ (digestOfHash h).data, c ∈ "0123456789abcdef".data := by
  intro c hc
  simp only [digestOfHash, List.mem_append] at hc
  rcases hc with ((((((hc | hc) | hc) | hc) | hc) | hc) | hc) | hc <;>
    exact toHex8List_mem hc

/-- The retry loop performs at most `budget + 1` attempts. -/
lemma fetchAttempts_le (p : RetryPolicy) (m : String) :
    ∀ (statuses : List Nat) (budget : Nat),
      fetchAttempts p m statuses budget ≤ budget + 1 := by
  intro statuses
  induction statuses with
  | nil => intro budget; exact Nat.zero_le _
  | cons s rest ih =>
    intro budget
    show (if shouldRetry p m s then
        match budget with
        | 0 => 1
        | b + 1 => 1 + fetchAttempts p m rest b
      else 1) ≤ budget + 1
    split
    · match budget with
      | 0 => exact Nat.le_refl 1
      | b + 1 =>
        show 1 + fetchAttempts p m rest b ≤ b + 1 + 1
        have := ih b
        omega
    · omega

/-- A method outside the allowed list is never retried: one attempt. -/
lemma fetchAttempts_not_allowed (p : RetryPolicy) (m : String)
    (hm : p.allowed_methods.contains m = false) :
    ∀ (statuses : List Nat) (budget : Nat),
      fetchAttempts p m statuses budget ≤ 1 := by
  intro statuses budget
  cases statuses with
  | nil => exact Nat.zero_le _
  | cons s rest =>
    have hr : shouldRetry p m s = false := by
      rw [shouldRetry, hm, Bool.false_and]
    show (if shouldRetry p m s then
        match budget with
        | 0 => 1
        | b + 1 => 1 + fetchAttempts p m rest b
      else 1) ≤ 1
    rw [hr]
    simp

/-- A cache hit: the entry is returned unchanged, no model call, no state
change. -/
lemma evaluate_hit {version : String}
    {oracle : CallKind → String → Option ModelOutput} {gw : GatewayState}
    {kind : CallKind} {payload : String} {val : ModelOutput}
    (h : lookupEntry gw.cache ⟨version, kind, payload⟩ = some val) :
    evaluate version oracle gw kind payload = (gw, some val) := by
  simp [evaluate, h]

/-- When the model answers, the call returns a value that is afterwards
stored under (or already present at) the call's key. -/
lemma evaluate_stores {version : String}
    {oracle : CallKind → String → Option ModelOutput} {gw : GatewayState}
    {kind : CallKind} {payload : String}
    (h : oracle kind payload ≠ none) :
    ∃ val, (evaluate version oracle gw kind payload).2 = some val ∧
      lookupEntry (evaluate version oracle gw kind payload).1.cache
        ⟨version, kind, payload⟩ = some val := by
  rcases hl : lookupEntry gw.cache ⟨version, kind, payload⟩ with _ | v
  · rcases ho : oracle kind payload with _ | w
    · exact absurd ho h
    · exact ⟨w, by simp [evaluate, hl, ho, lookupEntry]⟩
  · exact ⟨v, by simp [evaluate, hl]⟩

lemma cacheLE_refl (c : List (CacheKey × ModelOutput)) : cacheLE c c :=
  fun _ _ h => h

lemma cacheLE_trans {a b c : List (CacheKey × ModelOutput)}
    (h₁ : cacheLE a b) (h₂ : cacheLE b c) : cacheLE a c :=
  fun k v h => h₂ k v (h₁ k v h)

/-- A key absent from every entry is not found. -/
lemma lookupEntry_none {c : List (CacheKey × ModelOutput)} {key : CacheKey}
    (h : ∀ e ∈ c, e.1 ≠ key) : lookupEntry c key = none := by
  induction c with
  | nil => rfl
  | cons e rest ih =>
    obtain ⟨k, v⟩ := e
    show (if k = key then some v else lookupEntry rest key) = none
    rw [if_neg (h (k, v) (by simp))]
    exact ih fun x hx => h x (by simp [hx])

/-- One gateway call only extends the cache. -/
lemma evaluate_cacheLE (version : String)
    (oracle : CallKind → String → Option ModelOutput) (gw : GatewayState)
    (kind : CallKind) (payload : String) :
    cacheLE gw.cache (evaluate version oracle gw kind payload).1.cache := by
  rcases hl : lookupEntry gw.cache ⟨version, kind, payload⟩ with _ | v
  · rcases ho : oracle kind payload with _ | w
    · simp only [evaluate, hl, ho]
      exact cacheLE_refl _
    · simp only [evaluate, hl, ho]
      intro key val h
      have hne : (⟨version, kind, payload⟩ : CacheKey) ≠ key := by
        intro he
        rw [← he] at h
        rw [hl] at h
        exact Option.noConfusion h
      show (if (⟨version, kind, payload⟩ : CacheKey) = key then some w
        else lookupEntry gw.cache key) = some val
      rw [if_neg hne]
      exact h
  · simp only [evaluate, hl]
    exact cacheLE_refl _

/-- The gate order fixes the shape of every outcome record. -/
lemma processPosting_inv (v rt : String)
    (oracle : CallKind → String → Option ModelOutput) (gc : GateConfig)
    (gw : GatewayState) (p : JobPosting) :
    outcomeInv (processPosting v rt oracle gc gw p).2 := by
  unfold processPosting outcomeInv
  split
  · simp
  · dsimp only
    split <;> simp

/-- Outcomes record the posting they were produced for. -/
lemma processPosting_posting (v rt : String)
    (oracle : CallKind → String → Option ModelOutput) (gc : GateConfig)
    (gw : GatewayState) (p : JobPosting) :
    (processPosting v rt oracle gc gw p).2.posting = p := by
  unfold processPosting
  split
  · rfl
  · dsimp only
    split <;> rfl

/-- Processing an unseen posting preserves the run invariant. -/
lemma applyPosting_inv {gc : GateConfig} {v rt : String}
    {oracle : CallKind → String → Option ModelOutput} {st : RunState}
    {p : JobPosting} (h : stateInv st)
    (hp : st.seen.contains (postingId p) = false) :
    stateInv (applyPosting gc v rt oracle st p) := by
  obtain ⟨h1, h2, h3⟩ := h
  have hpid : postingId p ∉ st.seen := by simpa using hp
  have hpost := processPosting_posting v rt oracle gc st.gw p
  refine ⟨?_, ?_, ?_⟩
  · intro o ho
    rcases List.mem_append.mp ho with ho | ho
    · exact h1 o ho
    · rw [List.mem_singleton.mp ho]
      exact processPosting_inv v rt oracle gc st.gw p
  · show ((st.outcomes ++
      [(processPosting v rt oracle gc st.gw p).2]).map
        fun o => postingId o.posting).Nodup
    rw [List.map_append, List.nodup_append]
    refine ⟨h2, by simp, ?_⟩
    intro x hx
    simp only [List.map_cons, List.map_nil, List.mem_singleton, hpost]
    rintro rfl
    obtain ⟨o, ho, hid⟩ := List.mem_map.mp hx
    exact hpid (hid ▸ h3 o ho)
  · intro o ho
    rcases List.mem_append.mp ho with ho | ho
    · exact List.mem_cons_of_mem _ (h3 o ho)
    · rw [List.mem_singleton.mp ho, hpost]
      exact List.mem_cons_self _ _

/-- The batch loop preserves the run invariant. -/
lemma runBatch_inv {rc : RunConfig} {gc : GateConfig} {v rt : String}
    {oracle : CallKind → String → Option ModelOutput} :
    ∀ (ps : List JobPosting) (st : RunState), stateInv st →
      stateInv (runBatch rc gc v rt oracle st ps) := by
  intro ps
  induction ps with
  | nil => intro st h; exact h
  | cons p ps ih =>
    intro st h
    have e : runBatch rc gc v rt oracle st (p :: ps) =
        if stopReached rc st then st
        else if st.seen.contains (postingId p) then
          runBatch rc gc v rt oracle st ps
        else runBatch rc gc v rt oracle
          (applyPosting gc v rt oracle st p) ps := rfl
    rw [e]
    by_cases h1 : stopReached rc st = true
    · rw [if_pos h1]; exact h
    · rw [if_neg h1]
      by_cases h2 : st.seen.contains (postingId p) = true
      · rw [if_pos h2]; exact ih st h
      · rw [if_neg h2]
        exact ih _ (applyPosting_inv h (by simpa using h2))

/-- The query loop preserves the run invariant. -/
lemma runQueries_inv {rc : RunConfig} {gc : GateConfig} {v rt : String}
    {oracle : CallKind → String → Option ModelOutput}
    {crawl : String → List JobPosting} :
    ∀ (qs : List String) (st : RunState), stateInv st →
      stateInv (runQueries rc gc v rt oracle crawl st qs).1 := by
  intro qs
  induction qs with
  | nil => intro st h; exact h
  | cons q qs ih =>
    intro st h
    have e : runQueries rc gc v rt oracle crawl st (q :: qs) =
        if stopReached rc st then (st, q :: qs)
        else runQueries rc gc v rt oracle crawl
          (runBatch rc gc v rt oracle st ((crawl q).take MAX_PER_QUERY))
          qs := rfl
    rw [e]
    by_cases h1 : stopReached rc st = true
    · rw [if_pos h1]; exact h
    · rw [if_neg h1]
      exact ih _ (runBatch_inv _ _ h)

/-- A posting's processing only extends the cache. -/
lemma processPosting_cacheLE (v rt : String)
    (oracle : CallKind → String → Option ModelOutput) (gc : GateConfig)
    (gw : GatewayState) (p : JobPosting) :
    cacheLE gw.cache (processPosting v rt oracle gc gw p).1.cache := by
  unfold processPosting
  split
  · exact cacheLE_refl _
  · dsimp only
    split
    · exact evaluate_cacheLE v oracle gw .degreeGate (degreePayload p)
    · exact cacheLE_trans
        (evaluate_cacheLE v oracle gw .degreeGate (degreePayload p))
        (evaluate_cacheLE v oracle _ .jobEvaluation (evalPayload rt p))
    · exact evaluate_cacheLE v oracle gw .degreeGate (degreePayload p)

/-- A batch only extends the cache. -/
lemma runBatch_cacheLE (rc : RunConfig) (gc : GateConfig) (v rt : String)
    (oracle : CallKind → String → Option ModelOutput) :
    ∀ (ps : List JobPosting) (st : RunState),
      cacheLE st.gw.cache (runBatch rc gc v rt oracle st ps).gw.cache := by
  intro ps
  induction ps with
  | nil => intro st; exact cacheLE_refl _
  | cons p ps ih =>
    intro st
    have e : runBatch rc gc v rt oracle st (p :: ps) =
        if stopReached rc st then st
        else if st.seen.contains (postingId p) then
          runBatch rc gc v rt oracle st ps
        else runBatch rc gc v rt oracle
          (applyPosting gc v rt oracle st p) ps := rfl
    rw [e]
    by_cases h1 : stopReached rc st = true
    · rw [if_pos h1]; exact cacheLE_refl _
    · rw [if_neg h1]
      by_cases h2 : st.seen.contains (postingId p) = true
      · rw [if_pos h2]; exact ih st
      · rw [if_neg h2]
        exact cacheLE_trans (processPosting_cacheLE v rt oracle gc st.gw p)
          (ih (applyPosting gc v rt oracle st p))

/-- The query loop only extends the cache. -/
lemma runQueries_cacheLE (rc : RunConfig) (gc : GateConfig) (v rt : String)
    (oracle : CallKind → String → Option ModelOutput)
    (crawl : String → List JobPosting) :
    ∀ (qs : List String) (st : RunState),
      cacheLE st.gw.cache
        (runQueries rc gc v rt oracle crawl st qs).1.gw.cache := by
  intro qs
  induction qs with
  | nil => intro st; exact cacheLE_refl _
  | cons q qs ih =>
    intro st
    have e : runQueries rc gc v rt oracle crawl st (q :: qs) =
        if stopReached rc st then (st, q :: qs)
        else runQueries rc gc v rt oracle crawl
          (runBatch rc gc v rt oracle st ((crawl q).take MAX_PER_QUERY))
          qs := rfl
    rw [e]
    by_cases h1 : stopReached rc st = true
    · rw [if_pos h1]; exact cacheLE_refl _
    · rw [if_neg h1]
      exact cacheLE_trans
        (runBatch_cacheLE rc gc v rt oracle _ st)
        (ih _)

/-- Replaying one posting against a cache that contains everything the
first pass stored: the gates and the evaluator read the same cached values,
produce the identical outcome, and leave the gateway untouched. -/
lemma processPosting_replay {v rt : String}
    {oracle : CallKind → String → Option ModelOutput} {gc : GateConfig}
    (htot : ∀ k pl, oracle k pl ≠ none) {gwA gwB : GatewayState}
    {p : JobPosting}
    (hext : cacheLE (processPosting v rt oracle gc gwA p).1.cache
      gwB.cache) :
    processPosting v rt oracle gc gwB p =
      (gwB, (processPosting v rt oracle gc gwA p).2) := by
  cases hl : locationGate gc p.location with
  | reject => simp [processPosting, hl]
  | pass =>
    obtain ⟨vd, hvd2, hvdst⟩ :=
      @evaluate_stores v oracle gwA .degreeGate (degreePayload p)
        (htot .degreeGate (degreePayload p))
    simp only [processPosting, hl] at hext ⊢
    rw [hvd2] at hext ⊢
    rcases vd with prof | d | er
    · -- schema mismatch: decode fails, posting skipped identically
      have hBdeg : lookupEntry gwB.cache
          ⟨v, .degreeGate, degreePayload p⟩ = some (.profileOut prof) :=
        hext _ _ hvdst
      rw [evaluate_hit hBdeg]
      simp [decodeDegree]
    · cases d with
      | eligible =>
        simp only [decodeDegree] at hext ⊢
        obtain ⟨ve, hve2, hvest⟩ :=
          @evaluate_stores v oracle
            (evaluate v oracle gwA .degreeGate (degreePayload p)).1
            .jobEvaluation (evalPayload rt p)
            (htot .jobEvaluation (evalPayload rt p))
        have hBdeg : lookupEntry gwB.cache
            ⟨v, .degreeGate, degreePayload p⟩ =
            some (.degreeOut .eligible) := by
          apply hext
          exact evaluate_cacheLE v oracle _ .jobEvaluation
            (evalPayload rt p) _ _ hvdst
        have hBeval : lookupEntry gwB.cache
            ⟨v, .jobEvaluation, evalPayload rt p⟩ = some ve :=
          hext _ _ hvest
        rw [evaluate_hit hBdeg]
        simp only [decodeDegree]
        rw [evaluate_hit hBeval, hve2]
      | rejectedEarly =>
        have hBdeg : lookupEntry gwB.cache
            ⟨v, .degreeGate, degreePayload p⟩ =
            some (.degreeOut .rejectedEarly) :=
          hext _ _ hvdst
        rw [evaluate_hit hBdeg]
        simp [decodeDegree]
    · have hBdeg : lookupEntry gwB.cache
          ⟨v, .degreeGate, degreePayload p⟩ = some (.evalOut er) :=
        hext _ _ hvdst
      rw [evaluate_hit hBdeg]
      simp [decodeDegree]

/-- Replaying a whole batch against a cache containing everything the first
pass stored: identical outcomes and seen-set, gateway untouched. -/
lemma runBatch_replay {rc : RunConfig} {gc : GateConfig} {v rt : String}
    {oracle : CallKind → String → Option ModelOutput}
    (htot : ∀ k pl, oracle k pl ≠ none) :
    ∀ (ps : List JobPosting) (stA : RunState) (gwB : GatewayState),
      cacheLE (runBatch rc gc v rt oracle stA ps).gw.cache gwB.cache →
      runBatch rc gc v rt oracle ⟨gwB, stA.seen, stA.outcomes⟩ ps =
        ⟨gwB, (runBatch rc gc v rt oracle stA ps).seen,
          (runBatch rc gc v rt oracle stA ps).outcomes⟩ := by
  intro ps
  induction ps with
  | nil => intro stA gwB _; rfl
  | cons p ps ih =>
    intro stA gwB hext
    have eA : runBatch rc gc v rt oracle stA (p :: ps) =
        if stopReached rc stA then stA
        else if stA.seen.contains (postingId p) then
          runBatch rc gc v rt oracle stA ps
        else runBatch rc gc v rt oracle
          (applyPosting gc v rt oracle stA p) ps := rfl
    have eB : runBatch rc gc v rt oracle
        ⟨gwB, stA.seen, stA.outcomes⟩ (p :: ps) =
        if stopReached rc stA then (⟨gwB, stA.seen, stA.outcomes⟩ : RunState)
        else if stA.seen.contains (postingId p) then
          runBatch rc gc v rt oracle ⟨gwB, stA.seen, stA.outcomes⟩ ps
        else runBatch rc gc v rt oracle
          (applyPosting gc v rt oracle ⟨gwB, stA.seen, stA.outcomes⟩ p)
          ps := rfl
    by_cases h1 : stopReached rc stA = true
    · rw [eA, if_pos h1] at hext ⊢
      rw [eB, if_pos h1]
    · by_cases h2 : stA.seen.contains (postingId p) = true
      · rw [eA, if_neg h1, if_pos h2] at hext ⊢
        rw [eB, if_neg h1, if_pos h2]
        exact ih stA gwB hext
      · rw [eA, if_neg h1, if_neg h2] at hext ⊢
        have hchain : cacheLE
            (processPosting v rt oracle gc stA.gw p).1.cache gwB.cache :=
          cacheLE_trans
            (runBatch_cacheLE rc gc v rt oracle ps
              (applyPosting gc v rt oracle stA p)) hext
        have hrep := processPosting_replay htot hchain
        have happ : applyPosting gc v rt oracle
            ⟨gwB, stA.seen, stA.outcomes⟩ p =
            ⟨gwB, (applyPosting gc v rt oracle stA p).seen,
              (applyPosting gc v rt oracle stA p).outcomes⟩ := by
          simp only [applyPosting, hrep]
        rw [eB, if_neg h1, if_neg h2, happ]
        exact ih (applyPosting gc v rt oracle stA p) gwB hext

/-- Replaying the whole query loop: identical outcomes, seen-set, and
remaining queries, gateway untouched. -/
lemma runQueries_replay {rc : RunConfig} {gc : GateConfig} {v rt : String}
    {oracle : CallKind → String → Option ModelOutput}
    {crawl : String → List JobPosting}
    (htot : ∀ k pl, oracle k pl ≠ none) :
    ∀ (qs : List String) (stA : RunState) (gwB : GatewayState),
      cacheLE (runQueries rc gc v rt oracle crawl stA qs).1.gw.cache
        gwB.cache →
      runQueries rc gc v rt oracle crawl
          ⟨gwB, stA.seen, stA.outcomes⟩ qs =
        (⟨gwB, (runQueries rc gc v rt oracle crawl stA qs).1.seen,
           (runQueries rc gc v rt oracle crawl stA qs).1.outcomes⟩,
         (runQueries rc gc v rt oracle crawl stA qs).2) := by
  intro qs
  induction qs with
  | nil => intro stA gwB _; rfl
  | cons q qs ih =>
    intro stA gwB hext
    have eA : runQueries rc gc v rt oracle crawl stA (q :: qs) =
        if stopReached rc stA then (stA, q :: qs)
        else runQueries rc gc v rt oracle crawl
          (runBatch rc gc v rt oracle stA ((crawl q).take MAX_PER_QUERY))
          qs := rfl
    have eB : runQueries rc gc v rt oracle crawl
        ⟨gwB, stA.seen, stA.outcomes⟩ (q :: qs) =
        if stopReached rc stA then
          ((⟨gwB, stA.seen, stA.outcomes⟩ : RunState), q :: qs)
        else runQueries rc gc v rt oracle crawl
          (runBatch rc gc v rt oracle ⟨gwB, stA.seen, stA.outcomes⟩
            ((crawl q).take MAX_PER_QUERY)) qs := rfl
    by_cases h1 : stopReached rc stA = true
    · rw [eA, if_pos h1] at hext ⊢
      rw [eB, if_pos h1]
    · rw [eA, if_neg h1] at hext ⊢
      rw [eB, if_neg h1]
      have hbatch : cacheLE
          (runBatch rc gc v rt oracle stA
            ((crawl q).take MAX_PER_QUERY)).gw.cache gwB.cache :=
        cacheLE_trans
          (runQueries_cacheLE rc gc v rt oracle crawl qs
            (runBatch rc gc v rt oracle stA
              ((crawl q).take MAX_PER_QUERY))) hext
      rw [runBatch_replay htot _ stA gwB hbatch]
      exact ih (runBatch rc gc v rt oracle stA
        ((crawl q).take MAX_PER_QUERY)) gwB hext

/-- The sort key is transitive. -/
lemma rowLE_trans (a b c : ResultRow) (h₁ : rowLE a b = true)
    (h₂ : rowLE b c = true) : rowLE a c = true := by
  simp only [rowLE, Bool.or_eq_true, Bool.and_eq_true, decide_eq_true_eq,
    beq_iff_eq] at h₁ h₂ ⊢
  omega

/-- The sort key is total. -/
lemma rowLE_total (a b : ResultRow) : (rowLE a b || rowLE b a) = true := by
  simp only [rowLE, Bool.or_eq_true, Bool.and_eq_true, decide_eq_true_eq,
    beq_iff_eq]
  omega

/-- A produced row carries the discovery index it was built from. -/
lemma rowOfOutcome_idx {i : Nat} {o : Processed} {r : ResultRow}
    (h : rowOfOutcome i o = some r) : r.discoveryIndex = i := by
  unfold rowOfOutcome at h
  split at h
  · split at h
    · exact (congrArg ResultRow.discoveryIndex
        (Option.some.inj h)).symm.trans rfl
    · exact Option.noConfusion h
  · exact Option.noConfusion h

/-- Rows extracted from an enumerated tail have indices at least the start
index, and appear with strictly increasing indices (discovery order). -/
lemma approvedRows_idx_mono (l : List Processed) :
    ∀ n : Nat,
      (∀ r ∈ (List.enumFrom n l).filterMap
          (fun io => rowOfOutcome io.1 io.2), n ≤ r.discoveryIndex) ∧
      ((List.enumFrom n l).filterMap
          (fun io => rowOfOutcome io.1 io.2)).Pairwise
        (fun a b => a.discoveryIndex < b.discoveryIndex) := by
  induction l with
  | nil => intro n; simp
  | cons o l ih =>
    intro n
    have e : (List.enumFrom n (o :: l)).filterMap
        (fun io => rowOfOutcome io.1 io.2) =
      match rowOfOutcome n o with
      | some r => r :: (List.enumFrom (n + 1) l).filterMap
          (fun io => rowOfOutcome io.1 io.2)
      | none => (List.enumFrom (n + 1) l).filterMap
          (fun io => rowOfOutcome io.1 io.2) := by
      simp [List.enumFrom, List.filterMap_cons]
      split <;> simp_all
    rcases hr : rowOfOutcome n o with _ | r
    · rw [e, hr]
      refine ⟨?_, (ih (n + 1)).2⟩
      intro x hx
      have := (ih (n + 1)).1 x hx
      omega
    · rw [e, hr]
      refine ⟨?_, ?_⟩
      · intro x hx
        rcases List.mem_cons.mp hx with rfl | hx
        · rw [rowOfOutcome_idx hr]
        · have := (ih (n + 1)).1 x hx
          omega
      · refine List.Pairwise.cons ?_ (ih (n + 1)).2
        intro x hx
        have h1 := (ih (n + 1)).1 x hx
        have h2 := rowOfOutcome_idx hr
        omega

/-!
Part 6: the claims.
-/

/-- C2: the written output has exactly the rows of approved outcomes (same
membership, in fact a permutation of the approved rows), it is pairwise
ordered by score descending with ties decided by priority tier then by
discovery index, and the discovery indices of the approved rows strictly
increase in discovery order — so among rows with equal score and tier the
earlier-discovered posting appears first. -/
theorem C2_result_writer (outcomes : List Processed) :
    (∀ r, r ∈ writeResults outcomes ↔ r ∈ approvedRows outcomes) ∧
    List.Pairwise (fun a b => rowLE a b = true) (writeResults outcomes) ∧
    (writeResults outcomes).Perm (approvedRows outcomes) ∧
    List.Pairwise (fun a b => a.discoveryIndex < b.discoveryIndex)
      (approvedRows outcomes) := by
  have hperm := List.mergeSort_perm (approvedRows outcomes) rowLE
  refine ⟨fun r => hperm.mem_iff, ?_, hperm, ?_⟩
  · exact List.sorted_mergeSort rowLE_trans rowLE_total (approvedRows outcomes)
  · exact (approvedRows_idx_mono outcomes 0).2

/-- C2 witness: two approved outcomes with equal scores come out in
discovery order. -/
theorem C2_result_writer_witness :
    List.Pairwise (fun a b => rowLE a b = true)
      (writeResults
        [⟨⟨"li", "t1", "c1", "Dallas", "d1", "u1"⟩, .pass, some .eligible,
          some ⟨.approve, 80, 1, [], [], "r1"⟩, true⟩,
         ⟨⟨"li", "t2", "c2", "Dallas", "d2", "u2"⟩, .pass, some .eligible,
          some ⟨.approve, 80, 1, [], [], "r2"⟩, true⟩]) ∧
    List.Pairwise (fun a b => a.discoveryIndex < b.discoveryIndex)
      (approvedRows
        [⟨⟨"li", "t1", "c1", "Dallas", "d1", "u1"⟩, .pass, some .eligible,
          some ⟨.approve, 80, 1, [], [], "r1"⟩, true⟩,
         ⟨⟨"li", "t2", "c2", "Dallas", "d2", "u2"⟩, .pass, some .eligible,
          some ⟨.approve, 80, 1, [], [], "r2"⟩, true⟩]) :=
  ⟨(C2_result_writer
      [⟨⟨"li", "t1", "c1", "Dallas", "d1", "u1"⟩, .pass, some .eligible,
        some ⟨.approve, 80, 1, [], [], "r1"⟩, true⟩,
       ⟨⟨"li", "t2", "c2", "Dallas", "d2", "u2"⟩, .pass, some .eligible,
        some ⟨.approve, 80, 1, [], [], "r2"⟩, true⟩]).2.1,
   (C2_result_writer
      [⟨⟨"li", "t1", "c1", "Dallas", "d1", "u1"⟩, .pass, some .eligible,
        some ⟨.approve, 80, 1, [], [], "r1"⟩, true⟩,
       ⟨⟨"li", "t2", "c2", "Dallas", "d2", "u2"⟩, .pass, some .eligible,
        some ⟨.approve, 80, 1, [], [], "r2"⟩, true⟩]).2.2.2⟩

/-- C3: a CacheEntry present under the deterministic key (prompt version,
kind, payload) is returned unchanged with no model call; and re-running the
whole pipeline on the same resume text and prompt version over the
persisted cache reproduces the identical profile, outcomes (hence every
degree verdict and evaluation result), seen-set and leftover queries, with
zero model calls issued by the second run. -/
theorem C3_cache_determinism (rc : RunConfig) (gc : GateConfig)
    (oracle : CallKind → String → Option ModelOutput)
    (crawl : String → List JobPosting) (resumeText : String)
    (gw0 : GatewayState) (htot : ∀ k pl, oracle k pl ≠ none) :
    (∀ (gw : GatewayState) (kind : CallKind) (payload : String)
        (val : ModelOutput),
      lookupEntry gw.cache ⟨PROMPT_V, kind, payload⟩ = some val →
      evaluate PROMPT_V oracle gw kind payload = (gw, some val)) ∧
    (∀ prof st rem,
      (runPipeline rc gc PROMPT_V oracle crawl resumeText gw0).2 =
        some (prof, st, rem) →
      ∃ st₂,
        (runPipeline rc gc PROMPT_V oracle crawl resumeText
          ⟨(runPipeline rc gc PROMPT_V oracle crawl resumeText gw0).1.cache,
            0⟩).2 = some (prof, st₂, rem) ∧
        st₂.outcomes = st.outcomes ∧ st₂.seen = st.seen ∧
        (runPipeline rc gc PROMPT_V oracle crawl resumeText
          ⟨(runPipeline rc gc PROMPT_V oracle crawl resumeText gw0).1.cache,
            0⟩).1.cache =
          (runPipeline rc gc PROMPT_V oracle crawl resumeText gw0).1.cache ∧
        (runPipeline rc gc PROMPT_V oracle crawl resumeText
          ⟨(runPipeline rc gc PROMPT_V oracle crawl resumeText gw0).1.cache,
            0⟩).1.calls = 0) := by
  refine ⟨fun gw kind payload val h => evaluate_hit h, ?_⟩
  intro prof st rem hrun
  obtain ⟨vp, hvp2, hvpst⟩ :=
    @evaluate_stores PROMPT_V oracle gw0 .profile resumeText
      (htot .profile resumeText)
  simp only [runPipeline] at hrun ⊢
  rw [hvp2] at hrun ⊢
  rcases vp with profv | d | er
  · simp only [decodeProfile] at hrun ⊢
    simp only [Prod.ext_iff, Option.some.injEq] at hrun
    obtain ⟨hprof, hst, hrem⟩ := hrun
    subst hprof
    subst hst
    subst hrem
    have hvp_fin : lookupEntry
        (runQueries rc gc PROMPT_V resumeText oracle crawl
          ⟨(evaluate PROMPT_V oracle gw0 .profile resumeText).1, [], []⟩
          (seedQueries profv)).1.gw.cache
        ⟨PROMPT_V, .profile, resumeText⟩ = some (.profileOut profv) :=
      runQueries_cacheLE rc gc PROMPT_V resumeText oracle crawl
        (seedQueries profv)
        ⟨(evaluate PROMPT_V oracle gw0 .profile resumeText).1, [], []⟩
        _ _ hvpst
    rw [@evaluate_hit PROMPT_V oracle
        ⟨(runQueries rc gc PROMPT_V resumeText oracle crawl
          ⟨(evaluate PROMPT_V oracle gw0 .profile resumeText).1, [], []⟩
          (seedQueries profv)).1.gw.cache, 0⟩
        .profile resumeText (.profileOut profv) hvp_fin]
    simp only [decodeProfile]
    have hrepl := @runQueries_replay rc gc PROMPT_V resumeText oracle
      crawl htot (seedQueries profv)
      ⟨(evaluate PROMPT_V oracle gw0 .profile resumeText).1, [], []⟩
      ⟨(runQueries rc gc PROMPT_V resumeText oracle crawl
        ⟨(evaluate PROMPT_V oracle gw0 .profile resumeText).1, [], []⟩
        (seedQueries profv)).1.gw.cache, 0⟩ (cacheLE_refl _)
    dsimp only at hrepl
    rw [hrepl]
    exact ⟨_, rfl, rfl, rfl, rfl, rfl⟩
  · simp [decodeProfile] at hrun
  · simp [decodeProfile] at hrun

/-- C3 witness: re-running a one-call pipeline over its persisted cache
reproduces the run with zero model calls. -/
theorem C3_cache_determinism_witness :
    ∃ st₂,
      (runPipeline ⟨200, 8, 25⟩ dallasGateConfig PROMPT_V
        (fun k _ => match k with
          | .profile => some (.profileOut ⟨[], [], 0, [], none, none, []⟩)
          | .degreeGate => some (.degreeOut .eligible)
          | .jobEvaluation => some (.evalOut ⟨.approve, 80, 1, [], [], "r"⟩))
        (fun _ => []) "resume"
        ⟨(runPipeline ⟨200, 8, 25⟩ dallasGateConfig PROMPT_V
          (fun k _ => match k with
            | .profile => some (.profileOut ⟨[], [], 0, [], none, none, []⟩)
            | .degreeGate => some (.degreeOut .eligible)
            | .jobEvaluation =>
              some (.evalOut ⟨.approve, 80, 1, [], [], "r"⟩))
          (fun _ => []) "resume" ⟨[], 0⟩).1.cache, 0⟩).2 =
        some (⟨[], [], 0, [], none, none, []⟩, st₂, []) ∧
      st₂.outcomes = (⟨⟨[(⟨PROMPT_V, .profile, "resume"⟩,
          .profileOut ⟨[], [], 0, [], none, none, []⟩)], 1⟩, [], []⟩ :
        RunState).outcomes ∧
      st₂.seen = (⟨⟨[(⟨PROMPT_V, .profile, "resume"⟩,
          .profileOut ⟨[], [], 0, [], none, none, []⟩)], 1⟩, [], []⟩ :
        RunState).seen ∧
      (runPipeline ⟨200, 8, 25⟩ dallasGateConfig PROMPT_V
        (fun k _ => match k with
          | .profile => some (.profileOut ⟨[], [], 0, [], none, none, []⟩)
          | .degreeGate => some (.degreeOut .eligible)
          | .jobEvaluation => some (.evalOut ⟨.approve, 80, 1, [], [], "r"⟩))
        (fun _ => []) "resume"
        ⟨(runPipeline ⟨200, 8, 25⟩ dallasGateConfig PROMPT_V
          (fun k _ => match k with
            | .profile => some (.profileOut ⟨[], [], 0, [], none, none, []⟩)
            | .degreeGate => some (.degreeOut .eligible)
            | .jobEvaluation =>
              some (.evalOut ⟨.approve, 80, 1, [], [], "r"⟩))
          (fun _ => []) "resume" ⟨[], 0⟩).1.cache, 0⟩).1.cache =
        (runPipeline ⟨200, 8, 25⟩ dallasGateConfig PROMPT_V
          (fun k _ => match k with
            | .profile => some (.profileOut ⟨[], [], 0, [], none, none, []⟩)
            | .degreeGate => some (.degreeOut .eligible)
            | .jobEvaluation =>
              some (.evalOut ⟨.approve, 80, 1, [], [], "r"⟩))
          (fun _ => []) "resume" ⟨[], 0⟩).1.cache ∧
      (runPipeline ⟨200, 8, 25⟩ dallasGateConfig PROMPT_V
        (fun k _ => match k with
          | .profile => some (.profileOut ⟨[], [], 0, [], none, none, []⟩)
          | .degreeGate => some (.degreeOut .eligible)
          | .jobEvaluation => some (.evalOut ⟨.approve, 80, 1, [], [], "r"⟩))
        (fun _ => []) "resume"
        ⟨(runPipeline ⟨200, 8, 25⟩ dallasGateConfig PROMPT_V
          (fun k _ => match k with
            | .profile => some (.profileOut ⟨[], [], 0, [], none, none, []⟩)
            | .degreeGate => some (.degreeOut .eligible)
            | .jobEvaluation =>
              some (.evalOut ⟨.approve, 80, 1, [], [], "r"⟩))
          (fun _ => []) "resume" ⟨[], 0⟩).1.cache, 0⟩).1.calls = 0 :=
  (C3_cache_determinism ⟨200, 8, 25⟩ dallasGateConfig
    (fun k _ => match k with
      | .profile => some (.profileOut ⟨[], [], 0, [], none, none, []⟩)
      | .degreeGate => some (.degreeOut .eligible)
      | .jobEvaluation => some (.evalOut ⟨.approve, 80, 1, [], [], "r"⟩))
    (fun _ => []) "resume" ⟨[], 0⟩
    (fun k pl => by cases k <;> simp)).2
    ⟨[], [], 0, [], none, none, []⟩
    ⟨⟨[(⟨PROMPT_V, .profile, "resume"⟩,
      .profileOut ⟨[], [], 0, [], none, none, []⟩)], 1⟩, [], []⟩
    [] (by decide)

/-- C4: the Location Gate returns reject only for a non-empty string naming
an out-of-area locale with no remote/nationwide (or in-area) indicator;
empty, remote-indicating, nation-wide, or ambiguous (no recognized outside
locale) strings always pass. The gate is a plain function of the string and
the static configuration. -/
theorem C4_location_gate (cfg : GateConfig) (loc : String) :
    (locationGate cfg loc = .reject →
      pyStrip loc ≠ "" ∧ namesOutside cfg loc = true ∧
        hasRemoteOrArea cfg loc = false) ∧
    (pyStrip loc = "" → locationGate cfg loc = .pass) ∧
    (hasRemoteOrArea cfg loc = true → locationGate cfg loc = .pass) ∧
    (namesOutside cfg loc = false → locationGate cfg loc = .pass) := by
  unfold locationGate
  split_ifs with h1 h2 h3 <;> simp_all

/-- C4 witness: "New York, NY" is rejected for the named out-of-area locale;
"Remote — US" passes regardless of the target metro. -/
theorem C4_location_gate_witness :
    ((pyStrip "New York, NY" ≠ "" ∧
        namesOutside dallasGateConfig "New York, NY" = true ∧
        hasRemoteOrArea dallasGateConfig "New York, NY" = false) ∧
      locationGate dallasGateConfig "Remote — US" = .pass) ∧
    locationGate dallasGateConfig "" = .pass :=
  ⟨⟨(C4_location_gate dallasGateConfig "New York, NY").1 (by decide),
    (C4_location_gate dallasGateConfig "Remote — US").2.2.1 (by decide)⟩,
   (C4_location_gate dallasGateConfig "").2.1 (by decide)⟩

/-- C1: the discovery loop ends only by meeting the approval target or the
evaluation bound (the stop condition on the final state) or by exhausting
the query list (no queries remain); it stops immediately when the condition
already holds, continues with the next query exactly when it does not, and
once the approval threshold is crossed the current batch issues no further
model-evaluation calls — the remaining postings leave the state untouched. -/
theorem C1_discovery_stop (rc : RunConfig) (gc : GateConfig)
    (v rt : String) (oracle : CallKind → String → Option ModelOutput)
    (crawl : String → List JobPosting) (st : RunState) (qs : List String) :
    ((runQueries rc gc v rt oracle crawl st qs).2 = [] ∨
      stopReached rc (runQueries rc gc v rt oracle crawl st qs).1 = true) ∧
    (stopReached rc st = true →
      runQueries rc gc v rt oracle crawl st qs = (st, qs)) ∧
    (stopReached rc st = false → ∀ q qs',
      runQueries rc gc v rt oracle crawl st (q :: qs') =
        runQueries rc gc v rt oracle crawl
          (runBatch rc gc v rt oracle st ((crawl q).take MAX_PER_QUERY))
          qs') ∧
    (∀ ps, rc.minApproved ≤ approvedCount st →
      runBatch rc gc v rt oracle st ps = st) := by
  refine ⟨?_, ?_, ?_, ?_⟩
  · induction qs generalizing st with
    | nil => exact Or.inl rfl
    | cons q qs ih =>
      have e : runQueries rc gc v rt oracle crawl st (q :: qs) =
          if stopReached rc st then (st, q :: qs)
          else runQueries rc gc v rt oracle crawl
            (runBatch rc gc v rt oracle st ((crawl q).take MAX_PER_QUERY))
            qs := rfl
      by_cases h : stopReached rc st = true
      · rw [e, if_pos h]
        exact Or.inr h
      · rw [e, if_neg h]
        exact ih _
  · intro h
    cases qs with
    | nil => rfl
    | cons q qs =>
      have e : runQueries rc gc v rt oracle crawl st (q :: qs) =
          if stopReached rc st then (st, q :: qs)
          else runQueries rc gc v rt oracle crawl
            (runBatch rc gc v rt oracle st ((crawl q).take MAX_PER_QUERY))
            qs := rfl
      rw [e, if_pos h]
  · intro h q qs'
    have e : runQueries rc gc v rt oracle crawl st (q :: qs') =
        if stopReached rc st then (st, q :: qs')
        else runQueries rc gc v rt oracle crawl
          (runBatch rc gc v rt oracle st ((crawl q).take MAX_PER_QUERY))
          qs' := rfl
    rw [e, if_neg (by simp [h])]
  · intro ps h
    cases ps with
    | nil => rfl
    | cons p ps =>
      have hs : stopReached rc st = true := by
        unfold stopReached
        rw [decide_eq_true h, Bool.true_or]
      have e : runBatch rc gc v rt oracle st (p :: ps) =
          if stopReached rc st then st
          else if st.seen.contains (postingId p) then
            runBatch rc gc v rt oracle st ps
          else runBatch rc gc v rt oracle
            (applyPosting gc v rt oracle st p) ps := rfl
      rw [e, if_pos hs]

/-- C1 witness: with the approval target met the batch leaves the state
untouched and the query loop stops with the query list intact; with the
condition not yet met the loop proceeds to the next query. -/
theorem C1_discovery_stop_witness :
    runBatch ⟨200, 1, 25⟩ dallasGateConfig "v" "r" (fun _ _ => none)
        ⟨⟨[], 0⟩, ["u"],
          [⟨⟨"li", "t", "c", "Dallas", "d", "u"⟩, .pass, some .eligible,
            some ⟨.approve, 90, 1, [], [], "ok"⟩, true⟩]⟩
        [⟨"li", "t2", "c2", "Dallas", "d2", "u2"⟩] =
      ⟨⟨[], 0⟩, ["u"],
        [⟨⟨"li", "t", "c", "Dallas", "d", "u"⟩, .pass, some .eligible,
          some ⟨.approve, 90, 1, [], [], "ok"⟩, true⟩]⟩ ∧
    runQueries ⟨200, 1, 25⟩ dallasGateConfig "v" "r" (fun _ _ => none)
        (fun _ => []) ⟨⟨[], 0⟩, ["u"],
          [⟨⟨"li", "t", "c", "Dallas", "d", "u"⟩, .pass, some .eligible,
            some ⟨.approve, 90, 1, [], [], "ok"⟩, true⟩]⟩ ["query"] =
      (⟨⟨[], 0⟩, ["u"],
        [⟨⟨"li", "t", "c", "Dallas", "d", "u"⟩, .pass, some .eligible,
          some ⟨.approve, 90, 1, [], [], "ok"⟩, true⟩]⟩, ["query"]) ∧
    runQueries ⟨200, 8, 25⟩ dallasGateConfig "v" "r" (fun _ _ => none)
        (fun _ => []) ⟨⟨[], 0⟩, [], []⟩ ["query"] =
      runQueries ⟨200, 8, 25⟩ dallasGateConfig "v" "r" (fun _ _ => none)
        (fun _ => [])
        (runBatch ⟨200, 8, 25⟩ dallasGateConfig "v" "r" (fun _ _ => none)
          ⟨⟨[], 0⟩, [], []⟩ (((fun (_ : String) =>
            ([] : List JobPosting)) "query").take MAX_PER_QUERY)) [] :=
  ⟨(C1_discovery_stop ⟨200, 1, 25⟩ dallasGateConfig "v" "r"
      (fun _ _ => none) (fun _ => []) ⟨⟨[], 0⟩, ["u"],
        [⟨⟨"li", "t", "c", "Dallas", "d", "u"⟩, .pass, some .eligible,
          some ⟨.approve, 90, 1, [], [], "ok"⟩, true⟩]⟩ []).2.2.2
      [⟨"li", "t2", "c2", "Dallas", "d2", "u2"⟩] (by decide),
   (C1_discovery_stop ⟨200, 1, 25⟩ dallasGateConfig "v" "r"
      (fun _ _ => none) (fun _ => []) ⟨⟨[], 0⟩, ["u"],
        [⟨⟨"li", "t", "c", "Dallas", "d", "u"⟩, .pass, some .eligible,
          some ⟨.approve, 90, 1, [], [], "ok"⟩, true⟩]⟩
      ["query"]).2.1 (by decide),
   (C1_discovery_stop ⟨200, 8, 25⟩ dallasGateConfig "v" "r"
      (fun _ _ => none) (fun _ => []) ⟨⟨[], 0⟩, [], []⟩ []).2.2.1
      (by decide) "query" []⟩

/-- C5: over a whole discovery run, every posting that reached the Job
Evaluator had LocationVerdict pass and DegreeVerdict eligible, a
rejected-early posting was never evaluated and has no result, and posting
identifiers are unique across outcomes, so each posting carries at most one
location verdict, one degree verdict, and one evaluation result. -/
theorem C5_pipeline_invariants (rc : RunConfig) (gc : GateConfig)
    (v rt : String) (oracle : CallKind → String → Option ModelOutput)
    (crawl : String → List JobPosting) (st : RunState) (qs : List String)
    (h : stateInv st) :
    (∀ o ∈ (runQueries rc gc v rt oracle crawl st qs).1.outcomes,
      o.evalAttempted = true →
        o.locVerdict = .pass ∧ o.degVerdict = some .eligible) ∧
    (∀ o ∈ (runQueries rc gc v rt oracle crawl st qs).1.outcomes,
      o.degVerdict = some .rejectedEarly →
        o.evalAttempted = false ∧ o.evalResult = none) ∧
    ((runQueries rc gc v rt oracle crawl st qs).1.outcomes.map
      fun o => postingId o.posting).Nodup := by
  obtain ⟨h1, h2, h3⟩ := runQueries_inv qs st h
  exact ⟨fun o ho ha => (h1 o ho).1 ha, fun o ho hd => (h1 o ho).2.1 hd, h2⟩

/-- C5 witness: a run from the empty state over one query whose posting is
approved end to end. -/
theorem C5_pipeline_invariants_witness :
    (∀ o ∈ (runQueries ⟨200, 8, 25⟩ dallasGateConfig "v" "resume"
        (fun k _ => match k with
          | .degreeGate => some (.degreeOut .eligible)
          | .jobEvaluation => some (.evalOut ⟨.approve, 80, 1, [], [], "r"⟩)
          | .profile => some (.profileOut ⟨[], [], 0, [], none, none, []⟩))
        (fun _ => [⟨"li", "t", "c", "Dallas, TX", "d", "u"⟩])
        ⟨⟨[], 0⟩, [], []⟩ ["query"]).1.outcomes,
      o.evalAttempted = true →
        o.locVerdict = .pass ∧ o.degVerdict = some .eligible) ∧
    (∀ o ∈ (runQueries ⟨200, 8, 25⟩ dallasGateConfig "v" "resume"
        (fun k _ => match k with
          | .degreeGate => some (.degreeOut .eligible)
          | .jobEvaluation => some (.evalOut ⟨.approve, 80, 1, [], [], "r"⟩)
          | .profile => some (.profileOut ⟨[], [], 0, [], none, none, []⟩))
        (fun _ => [⟨"li", "t", "c", "Dallas, TX", "d", "u"⟩])
        ⟨⟨[], 0⟩, [], []⟩ ["query"]).1.outcomes,
      o.degVerdict = some .rejectedEarly →
        o.evalAttempted = false ∧ o.evalResult = none) ∧
    ((runQueries ⟨200, 8, 25⟩ dallasGateConfig "v" "resume"
        (fun k _ => match k with
          | .degreeGate => some (.degreeOut .eligible)
          | .jobEvaluation => some (.evalOut ⟨.approve, 80, 1, [], [], "r"⟩)
          | .profile => some (.profileOut ⟨[], [], 0, [], none, none, []⟩))
        (fun _ => [⟨"li", "t", "c", "Dallas, TX", "d", "u"⟩])
        ⟨⟨[], 0⟩, [], []⟩ ["query"]).1.outcomes.map
      fun o => postingId o.posting).Nodup :=
  C5_pipeline_invariants ⟨200, 8, 25⟩ dallasGateConfig "v" "resume"
    (fun k _ => match k with
      | .degreeGate => some (.degreeOut .eligible)
      | .jobEvaluation => some (.evalOut ⟨.approve, 80, 1, [], [], "r"⟩)
      | .profile => some (.profileOut ⟨[], [], 0, [], none, none, []⟩))
    (fun _ => [⟨"li", "t", "c", "Dallas, TX", "d", "u"⟩])
    ⟨⟨[], 0⟩, [], []⟩ ["query"]
    ⟨fun o ho => absurd ho (List.not_mem_nil o), by simp,
     fun o ho => absurd ho (List.not_mem_nil o)⟩

/-- C6: run parameters default to 200 evaluations, 8 approvals, top 25, and
each is overridden by the flags the invoking collaborator passes (as the
streamlit front-end does). -/
theorem C6_config_defaults :
    parseArgs [] defaultConfig =
      { minEvals := 200, minApproved := 8, top := 25 } ∧
    ∀ a b c, parseArgs (streamlitFlags a b c) defaultConfig =
      { minEvals := a, minApproved := b, top := c } := by
  exact ⟨rfl, fun a b c => rfl⟩

/-- C7: with v ≠ v' every (kind, payload) key differs between versions, so
after a version bump the gateway misses the cache and issues a fresh model
call, while every previously stored entry remains in the store. -/
theorem C7_version_bump (v v' : String) (kind : CallKind) (payload : String)
    (oracle : CallKind → String → Option ModelOutput) (gw : GatewayState)
    (hv : v ≠ v') (hall : ∀ e ∈ gw.cache, e.1.version = v) :
    (⟨v, kind, payload⟩ : CacheKey) ≠ ⟨v', kind, payload⟩ ∧
    (evaluate v' oracle gw kind payload).1.calls = gw.calls + 1 ∧
    ∀ e ∈ gw.cache, e ∈ (evaluate v' oracle gw kind payload).1.cache := by
  have hmiss : lookupEntry gw.cache ⟨v', kind, payload⟩ = none := by
    apply lookupEntry_none
    intro e he hkey
    exact hv ((hall e he).symm.trans (congrArg CacheKey.version hkey))
  refine ⟨by simp [hv], ?_, ?_⟩
  · rcases ho : oracle kind payload with _ | w <;>
      simp [evaluate, hmiss, ho]
  · intro e he
    rcases ho : oracle kind payload with _ | w <;>
      simp [evaluate, hmiss, ho, he]

/-- C7 witness: bumping `PROMPT_V` on a one-entry store. -/
theorem C7_version_bump_witness :
    (⟨PROMPT_V, .profile, "resume"⟩ : CacheKey) ≠
      ⟨"2025-10-07.v2", .profile, "resume"⟩ ∧
    (evaluate "2025-10-07.v2" (fun _ _ => none)
      ⟨[(⟨PROMPT_V, .profile, "resume"⟩,
         .degreeOut .eligible)], 5⟩ .profile "resume").1.calls = 5 + 1 ∧
    ∀ e ∈ [((⟨PROMPT_V, .profile, "resume"⟩ : CacheKey),
        ModelOutput.degreeOut .eligible)],
      e ∈ (evaluate "2025-10-07.v2" (fun _ _ => none)
        ⟨[(⟨PROMPT_V, .profile, "resume"⟩,
           .degreeOut .eligible)], 5⟩ .profile "resume").1.cache :=
  C7_version_bump PROMPT_V "2025-10-07.v2" .profile "resume"
    (fun _ _ => none) ⟨[(⟨PROMPT_V, .profile, "resume"⟩,
      .degreeOut .eligible)], 5⟩ (by decide) (by decide)

/-- C8: the crawl session is built with at most 2 retries, backoff factor
0.5, retrying only GET requests on 429/500/502/503/504, and a 12-second
request timeout; a fetch makes at most `retries + 1 = 3` attempts, a
non-GET is never retried, and one unit failing leaves the other units'
fetches unchanged. -/
theorem C8_session_bounds :
    SESSION.retry.total = 2 ∧
    SESSION.retry.backoff_factor = 1 / 2 ∧
    SESSION.retry.status_forcelist = [429, 500, 502, 503, 504] ∧
    SESSION.retry.allowed_methods = ["GET"] ∧
    SESSION.request_timeout = 12 ∧
    (∀ method statuses, attemptsUsed SESSION method statuses ≤ 3) ∧
    (∀ method statuses, method ≠ "GET" →
      attemptsUsed SESSION method statuses ≤ 1) ∧
    (∀ (fetch : String → Option (List JobPosting)) us₁ q us₂,
      crawlUnits fetch (us₁ ++ q :: us₂) =
        crawlUnits fetch us₁ ++ fetch q :: crawlUnits fetch us₂) := by
  refine ⟨rfl, rfl, rfl, rfl, rfl, ?_, ?_, ?_⟩
  · intro method statuses
    exact fetchAttempts_le SESSION.retry method statuses SESSION.retry.total
  · intro method statuses hm
    apply fetchAttempts_not_allowed
    show (["GET"] : List String).contains method = false
    simpa using hm
  · intro fetch us₁ q us₂
    simp [crawlUnits]

/-- C8 witness: a POST against persistent 500s makes one attempt. -/
theorem C8_session_bounds_witness :
    attemptsUsed SESSION "POST" [500, 500, 500, 500] ≤ 1 :=
  C8_session_bounds.2.2.2.2.2.2.1 "POST" [500, 500, 500, 500] (by decide)

/-- C9: a missing or blank OPENAI_API_KEY is fatal at startup with exit
status 1 before any pipeline work, a usable key proceeds, and no single
posting's failure aborts the run — the batch loop always continues with the
remaining postings whatever the oracle returned for the current one. -/
theorem C9_startup_credentials :
    startupCheck none = .exitWith 1 ∧
    (∀ key, pyStrip key = "" → startupCheck (some key) = .exitWith 1) ∧
    (∀ key, pyStrip key ≠ "" →
      startupCheck (some key) = .proceed (pyStrip key)) ∧
    (∀ rc gc v rt oracle st p ps,
      stopReached rc st = false →
      st.seen.contains (postingId p) = false →
      runBatch rc gc v rt oracle st (p :: ps) =
        runBatch rc gc v rt oracle (applyPosting gc v rt oracle st p) ps) := by
  refine ⟨rfl, ?_, ?_, ?_⟩
  · intro key h
    simp [startupCheck, h]
  · intro key h
    simp [startupCheck, h]
  · intro rc gc v rt oracle st p ps h1 h2
    have e : runBatch rc gc v rt oracle st (p :: ps) =
        if stopReached rc st then st
        else if st.seen.contains (postingId p) then
          runBatch rc gc v rt oracle st ps
        else runBatch rc gc v rt oracle
          (applyPosting gc v rt oracle st p) ps := rfl
    rw [e, h1, h2]
    simp

/-- C9 witness: blank key exits 1; a batch continues past a posting whose
model calls all fail. -/
theorem C9_startup_credentials_witness :
    startupCheck (some "   ") = .exitWith 1 ∧
    runBatch ⟨200, 8, 25⟩ dallasGateConfig "v" "resume" (fun _ _ => none)
        ⟨⟨[], 0⟩, [], []⟩ [⟨"li", "t", "c", "Dallas, TX", "d", "u"⟩] =
      runBatch ⟨200, 8, 25⟩ dallasGateConfig "v" "resume" (fun _ _ => none)
        (applyPosting dallasGateConfig "v" "resume" (fun _ _ => none)
          ⟨⟨[], 0⟩, [], []⟩ ⟨"li", "t", "c", "Dallas, TX", "d", "u"⟩) [] :=
  ⟨C9_startup_credentials.2.1 "   " (by decide),
   C9_startup_credentials.2.2.2 ⟨200, 8, 25⟩ dallasGateConfig "v" "resume"
     (fun _ _ => none) ⟨⟨[], 0⟩, [], []⟩
     ⟨"li", "t", "c", "Dallas, TX", "d", "u"⟩ [] (by decide) (by decide)⟩

/-- C10: `sha` is total on strings (a plain function) and always returns a
64-character lowercase hexadecimal digest. -/
theorem C10_sha_wellformed (s : String) :
    (sha s).length = 64 ∧
    ∀ c ∈ (sha s).data, c ∈ "0123456789abcdef".data :=
  ⟨digestOfHash_length _, digestOfHash_chars _⟩

/-- C10 witness: the digest of "abc" at its first character. -/
theorem C10_sha_wellformed_witness :
    (sha "abc").length = 64 ∧
    ('b' : Char) ∈ "0123456789abcdef".data :=
  ⟨(C10_sha_wellformed "abc").1,
   (C10_sha_wellformed "abc").2 'b' (by
     rw [show sha "abc" =
       "ba7816bf8f01cfea414140de5dae2223b00361a396177a9cb410ff61f20015ad"
       from rfl]
     decide)⟩

end Matcher
